import Mathlib

/-!
Shallow embedding of the `brago` Go package (`brago.go`): the `Bracket`
acquire/use/release combinator, its `errors.Join` error-combination policy,
the derived `WithResource` form over an `io.Closer`-style close capability,
and an instrumented variant that records which callbacks were invoked and
with which resource value.

Go `error` values are modelled as `Option (GoError α)` (`none` = nil).
A Go `acquire func() (R, error)` is invoked exactly once, at the start of
`Bracket`; it is therefore modelled by its unique result, a pair
`ρ × Option (GoError α)`.
-/

namespace Brago

variable {ρ α : Type}

/-- A non-nil Go `error` value: either an atomic error, or the aggregate
error produced by `errors.Join` (Go's `joinError`, wrapping a list of
errors). -/
inductive GoError (α : Type) : Type where
  | atom : α → GoError α
  | joined : List (GoError α) → GoError α

/-- Go `joinError.Unwrap() []error`: the list of wrapped errors of an
aggregate, in order; an atomic error wraps nothing. -/
def goUnwrap : GoError α → List (GoError α)
  | GoError.atom _ => []
  | GoError.joined es => es

/-- Go `errors.Join(errs...)`: nil errors are discarded; the result is nil
when every argument is nil, and otherwise a `joinError` aggregate wrapping
the non-nil arguments in argument order. -/
def errorsJoin (errs : List (Option (GoError α))) : Option (GoError α) :=
  match errs.filterMap id with
  | [] => none
  | es => some (GoError.joined es)

/-- One observable callback invocation performed by the bracket engine,
together with the resource value it was passed. -/
inductive Event (ρ : Type) : Type where
  | useCall : ρ → Event ρ
  | releaseCall : ρ → Event ρ
  deriving DecidableEq

/-- The body of `Bracket` from `brago.go`, instrumented: alongside the
returned `error` it records, in execution order, the `use`/`release`
invocations and their arguments. The control flow mirrors the source:
if `acquire` errs, return that error (no calls); otherwise call `use r`;
if `use` errs, call `release r` and either `errors.Join` both errors or
return the `use` error alone; if `use` succeeds, return `release r`. -/
def BracketRun (acquire : ρ × Option (GoError α))
    (release : ρ → Option (GoError α)) (use : ρ → Option (GoError α)) :
    Option (GoError α) × List (Event ρ) :=
  match acquire with
  | (_, some err) => (some err, [])
  | (r, none) =>
    match use r with
    | some err =>
      match release r with
      | some cerr =>
          (errorsJoin [some err, some cerr], [Event.useCall r, Event.releaseCall r])
      | none => (some err, [Event.useCall r, Event.releaseCall r])
    | none => (release r, [Event.useCall r, Event.releaseCall r])

/-- `Bracket` from `brago.go`: the returned outcome. -/
def Bracket (acquire : ρ × Option (GoError α))
    (release : ρ → Option (GoError α)) (use : ρ → Option (GoError α)) :
    Option (GoError α) :=
  (BracketRun acquire release use).1

/-- The invocation trace of a `Bracket` call. -/
def BracketEvents (acquire : ρ × Option (GoError α))
    (release : ρ → Option (GoError α)) (use : ρ → Option (GoError α)) :
    List (Event ρ) :=
  (BracketRun acquire release use).2

/-- The `io.Closer` constraint of `WithResource`, as an explicit capability
dictionary: a fallible `Close` method over the resource type. -/
structure Closer (ρ α : Type) : Type where
  close : ρ → Option (GoError α)

/-- `WithResource` from `brago.go`: `Bracket` with the release function
synthesized from the resource's own `Close` capability. -/
def WithResource (inst : Closer ρ α) (acquire : ρ × Option (GoError α))
    (use : ρ → Option (GoError α)) : Option (GoError α) :=
  Bracket acquire (fun r => inst.close r) use

/-- Modelled from the spec: the infallible-release variant
`bracketInfallible` is absent from the sources under review (only the
fallible-release `Bracket` and `WithResource` appear there, though the
example tests also call `BracketTry`/`WithResourceTry` variants whose
definitions are likewise missing). Per the spec it is a thin adaptation
over the fallible-release engine: the non-failing release (no failure
channel, modelled as `ρ → Unit`) is wrapped so that, after performing its
effect, it always reports success (`none`). -/
def BracketInfallible (acquire : ρ × Option (GoError α)) (release : ρ → Unit)
    (use : ρ → Option (GoError α)) : Option (GoError α) :=
  Bracket acquire (fun r => let _ := release r; none) use

/-- An infallible close capability: a `Close`-style method with no failure
channel. -/
structure CloserInfallible (ρ : Type) : Type where
  close : ρ → Unit

/-- Modelled from the spec: the derived `withResourceInfallible` form,
absent from the sources under review — `BracketInfallible` with the release
function synthesized from the resource's own infallible close capability. -/
def WithResourceInfallible (inst : CloserInfallible ρ)
    (acquire : ρ × Option (GoError α)) (use : ρ → Option (GoError α)) :
    Option (GoError α) :=
  BracketInfallible acquire inst.close use

/-- Outcome of the `use` callback when Go panics are made explicit: normal
return with nil error, normal return with a non-nil error, or a panic
propagating out of the callback. -/
inductive UseOutcome (α : Type) : Type where
  | ok : UseOutcome α
  | err : GoError α → UseOutcome α
  | panicked : UseOutcome α

/-- Result of a `Bracket` call when Go panics are made explicit: a normal
return carrying the `error` result, or a panic propagating out. -/
inductive ExecResult (α : Type) : Type where
  | ret : Option (GoError α) → ExecResult α
  | panicked : ExecResult α

/-- The body of `Bracket` from `brago.go` embedded under Go panic
semantics, instrumented with the invocation trace. The body contains no
`defer` statement, so a panic raised by `use r` unwinds out of `Bracket`
before the `release` call sites on the subsequent statements are reached:
in the `panicked` branch no `releaseCall` event occurs. All other branches
are exactly those of `BracketRun`. -/
def BracketPanicRun (acquire : ρ × Option (GoError α))
    (release : ρ → Option (GoError α)) (use : ρ → UseOutcome α) :
    ExecResult α × List (Event ρ) :=
  match acquire with
  | (_, some err) => (ExecResult.ret (some err), [])
  | (r, none) =>
    match use r with
    | UseOutcome.panicked => (ExecResult.panicked, [Event.useCall r])
    | UseOutcome.err err =>
      match release r with
      | some cerr =>
          (ExecResult.ret (errorsJoin [some err, some cerr]),
            [Event.useCall r, Event.releaseCall r])
      | none => (ExecResult.ret (some err), [Event.useCall r, Event.releaseCall r])
    | UseOutcome.ok =>
        (ExecResult.ret (release r), [Event.useCall r, Event.releaseCall r])

/-- Claim C1: when `acquire` succeeds (resource `r`, nil error), the
invocation trace of `Bracket` is exactly one `use` call followed by exactly
one `release` call, both with argument `r`, whatever the outcomes of `use`
and `release` — so `release` is invoked exactly once, after `use` has
returned, and is passed the resource value `acquire` returned. -/
theorem bracket_release_exactly_once_after_use (r : ρ)
    (release use : ρ → Option (GoError α)) :
    BracketEvents (r, none) release use = [Event.useCall r, Event.releaseCall r] := by
  cases hu : use r <;> cases hr : release r <;>
    simp [BracketEvents, BracketRun, hu, hr]

/-- Claim C2: when `acquire` fails with error `e`, `Bracket` returns exactly
`e` and the invocation trace is empty — neither `use` nor `release` is ever
invoked. -/
theorem bracket_acquire_failure_short_circuits (r : ρ) (e : GoError α)
    (release use : ρ → Option (GoError α)) :
    Bracket (r, some e) release use = some e ∧
    BracketEvents (r, some e) release use = [] :=
  ⟨rfl, rfl⟩

/-- Claim C3: when `acquire` succeeds and both `use` (error `u`) and
`release` (error `c`) fail, the outcome is an aggregate error whose parts
contain both failures, with the `use` failure first and the `release`
failure last — so a caller can distinguish which was which. -/
theorem bracket_both_failures_exposed (r : ρ) (u c : GoError α)
    (release use : ρ → Option (GoError α))
    (hu : use r = some u) (hc : release r = some c) :
    ∃ parts, Bracket (r, none) release use = some (GoError.joined parts) ∧
      u ∈ parts ∧ c ∈ parts ∧
      parts.head? = some u ∧ parts.getLast? = some c := by
  refine ⟨[u, c], ?_, ?_, ?_, rfl, rfl⟩
  · simp [Bracket, BracketRun, errorsJoin, hu, hc]
  · simp
  · simp

/-- Witness for C3 at the spec's concrete scenario: resource `1`, `use`
fails with `"E1"`, `release` fails with `"E2"`. -/
theorem bracket_both_failures_exposed_witness :
    ∃ parts, Bracket ((1 : Nat), none)
        (fun _ => some (GoError.atom "E2")) (fun _ => some (GoError.atom "E1")) =
        some (GoError.joined parts) ∧
      GoError.atom "E1" ∈ parts ∧ GoError.atom "E2" ∈ parts ∧
      parts.head? = some (GoError.atom "E1") ∧
      parts.getLast? = some (GoError.atom "E2") :=
  bracket_both_failures_exposed 1 (GoError.atom "E1") (GoError.atom "E2")
    (fun _ => some (GoError.atom "E2")) (fun _ => some (GoError.atom "E1")) rfl rfl

/-- Claim C4: when `acquire` succeeds, `use` fails with `u`, and `release`
succeeds, the outcome is exactly the original `use` failure `u`. -/
theorem bracket_use_failure_alone (r : ρ) (u : GoError α)
    (release use : ρ → Option (GoError α))
    (hu : use r = some u) (hc : release r = none) :
    Bracket (r, none) release use = some u := by
  simp [Bracket, BracketRun, hu, hc]

/-- Witness for C4: resource `1`, `use` fails with `"E1"`, `release`
succeeds. -/
theorem bracket_use_failure_alone_witness :
    Bracket ((1 : Nat), none) (fun _ => none) (fun _ => some (GoError.atom "E1")) =
      some (GoError.atom "E1") :=
  bracket_use_failure_alone 1 (GoError.atom "E1") (fun _ => none)
    (fun _ => some (GoError.atom "E1")) rfl rfl

/-- Claim C5: when `acquire` succeeds and `use` succeeds, the outcome is
exactly `release`'s outcome — `none` if `release` succeeds, the release
failure alone otherwise. -/
theorem bracket_use_ok_outcome_is_release (r : ρ)
    (release use : ρ → Option (GoError α)) (hu : use r = none) :
    Bracket (r, none) release use = release r := by
  simp [Bracket, BracketRun, hu]

/-- Witness for C5: resource `1`, `use` succeeds, `release` fails with
`"E2"`; the outcome is that release failure. -/
theorem bracket_use_ok_outcome_is_release_witness :
    Bracket ((1 : Nat), none) (fun _ => some (GoError.atom "E2")) (fun _ => none) =
      some (GoError.atom "E2") :=
  bracket_use_ok_outcome_is_release 1 (fun _ => some (GoError.atom "E2"))
    (fun _ => none) rfl

/-- Claim C6: `WithResource acquire use` produces an outcome identical to
`Bracket acquire release use` where the release function invokes the
resource's own close capability and returns its result. -/
theorem withResource_eq_bracket_close (inst : Closer ρ α)
    (acquire : ρ × Option (GoError α)) (use : ρ → Option (GoError α)) :
    WithResource inst acquire use = Bracket acquire inst.close use :=
  rfl

/-- Claim C7: the infallible-release variant (spec-modelled
`BracketInfallible`, with derived `WithResourceInfallible`) never reports a
release failure: every outcome is success, the acquisition failure, or the
use failure alone; and the derived form is exactly the engine with the
release synthesized from the infallible close capability. -/
theorem bracketInfallible_no_release_failure (acquire : ρ × Option (GoError α))
    (release : ρ → Unit) (use : ρ → Option (GoError α))
    (inst : CloserInfallible ρ) :
    (BracketInfallible acquire release use = none ∨
     BracketInfallible acquire release use = acquire.2 ∨
     BracketInfallible acquire release use = use acquire.1) ∧
    WithResourceInfallible inst acquire use =
      BracketInfallible acquire inst.close use := by
  constructor
  · obtain ⟨r, a⟩ := acquire
    cases a with
    | some e => right; left; rfl
    | none =>
      cases hu : use r with
      | none => left; simp [BracketInfallible, Bracket, BracketRun, hu]
      | some u => right; right; simp [BracketInfallible, Bracket, BracketRun, hu]
  · rfl

/-- Counterexample to claim C8: the body of `Bracket` registers no
`defer`; with `acquire` succeeding with resource `1` and `use` exiting via
a propagating panic, the panic unwinds out of `Bracket` and `release` is
never invoked. -/
theorem bracket_panicking_use_skips_release :
    (BracketPanicRun ((1 : Nat), (none : Option (GoError Nat))) (fun _ => none)
      (fun _ => UseOutcome.panicked)).1 = ExecResult.panicked ∧
    Event.releaseCall (1 : Nat) ∉
      (BracketPanicRun ((1 : Nat), (none : Option (GoError Nat))) (fun _ => none)
        (fun _ => UseOutcome.panicked)).2 := by
  constructor
  · rfl
  · simp [BracketPanicRun]

/-- Claim C8 as amended: after a successful acquisition, `release` is
invoked exactly once, after `use`, whenever `use` returns by an ordinary
return (success or failure); the release call is an ordinary sequential
statement, not a guaranteed-execution (`defer`) block, so when `use` exits
via a propagating panic `release` is not invoked. -/
theorem bracket_release_follows_normal_return_only (r : ρ)
    (release : ρ → Option (GoError α)) (use : ρ → UseOutcome α)
    (h : use r ≠ UseOutcome.panicked) :
    (BracketPanicRun (r, none) release use).2 =
      [Event.useCall r, Event.releaseCall r] ∧
    (BracketPanicRun (r, none) release (fun _ => UseOutcome.panicked)).2 =
      [Event.useCall r] := by
  constructor
  · cases hu : use r with
    | ok => cases hr : release r <;> simp [BracketPanicRun, hu, hr]
    | err u => cases hr : release r <;> simp [BracketPanicRun, hu, hr]
    | panicked => exact absurd hu h
  · rfl

/-- Witness for the amended C8: resource `1`, `use` returns normally with
success, `release` succeeds. -/
theorem bracket_release_follows_normal_return_only_witness :
    (BracketPanicRun ((1 : Nat), (none : Option (GoError Nat))) (fun _ => none)
      (fun _ => UseOutcome.ok)).2 = [Event.useCall 1, Event.releaseCall 1] ∧
    (BracketPanicRun ((1 : Nat), (none : Option (GoError Nat))) (fun _ => none)
      (fun _ => UseOutcome.panicked)).2 = [Event.useCall 1] :=
  bracket_release_follows_normal_return_only 1 (fun _ => none)
    (fun _ => UseOutcome.ok) (fun hcon => UseOutcome.noConfusion hcon)

/-- Claim C9: in the combined-failure case the outcome is
`errors.Join(useError, releaseError)`: an aggregate wrapping exactly those
two errors, the `use` failure first and the `release` failure second, and
unwrapping it yields them in that fixed order. -/
theorem bracket_join_order_use_then_release (r : ρ) (u c : GoError α)
    (release use : ρ → Option (GoError α))
    (hu : use r = some u) (hc : release r = some c) :
    Bracket (r, none) release use = errorsJoin [some u, some c] ∧
    errorsJoin [some u, some c] = some (GoError.joined [u, c]) ∧
    goUnwrap (GoError.joined [u, c]) = [u, c] := by
  refine ⟨?_, rfl, rfl⟩
  simp [Bracket, BracketRun, hu, hc]

/-- Witness for C9: resource `1`, `use` fails with `"E1"`, `release` fails
with `"E2"`; the outcome joins them in that order. -/
theorem bracket_join_order_use_then_release_witness :
    Bracket ((1 : Nat), none) (fun _ => some (GoError.atom "E2"))
      (fun _ => some (GoError.atom "E1")) =
      errorsJoin [some (GoError.atom "E1"), some (GoError.atom "E2")] ∧
    errorsJoin [some (GoError.atom "E1"), some (GoError.atom "E2")] =
      some (GoError.joined [GoError.atom "E1", GoError.atom "E2"]) ∧
    goUnwrap (GoError.joined [GoError.atom "E1", GoError.atom "E2"]) =
      [GoError.atom "E1", GoError.atom "E2"] :=
  bracket_join_order_use_then_release 1 (GoError.atom "E1") (GoError.atom "E2")
    (fun _ => some (GoError.atom "E2")) (fun _ => some (GoError.atom "E1")) rfl rfl

/-- Claim C10: success of acquisition is judged solely by `acquire`'s
error component: when it is non-nil, that error is the outcome, and a
resource value `r` materialized alongside the error is never passed to
`use` or `release` — it is never released. -/
theorem bracket_error_resource_never_used_or_released (r : ρ) (e : GoError α)
    (release use : ρ → Option (GoError α)) :
    Bracket (r, some e) release use = some e ∧
    Event.useCall r ∉ BracketEvents (r, some e) release use ∧
    Event.releaseCall r ∉ BracketEvents (r, some e) release use := by
  refine ⟨rfl, ?_, ?_⟩ <;> simp [BracketEvents, BracketRun]

end Brago
